import Mathlib

/-!
Shallow embedding of the RBB-Website presentational components:
the pagination page-window computation and link building from
`src/components/Pagination/Pagination.jsx`, and the footer link renderer
from `src/components/footer/FooterLinks.js`.
-/

namespace RBB

/-- Modelled from the spec: the helper `range(from, to)` imported from
`src/utils/common` is not included under `src/`. The spec describes the
pagination arithmetic as wrapping standard numeric range operations, and the
component's own worked example — ten pages, two neighbours, current page six
rendering (1) < 4 5 [6] 7 8 > (10) — fixes it as the inclusive ascending
integer range from `lo` to `hi`, empty when `lo > hi`. -/
def range (lo hi : Int) : List Int :=
  (List.range (hi - lo + 1).toNat).map (fun (i : Nat) => lo + (i : Int))

/-- An entry of the computed pages list: a page number, or the `'...'`
placeholder used for hidden page ranges. -/
inductive PageEntry where
  | num : Int → PageEntry
  | placeholder : PageEntry
  deriving DecidableEq, Repr

/-- The `PLACEHOLDER` constant of `Pagination.jsx` (the string `'...'`). -/
def PLACEHOLDER : PageEntry := PageEntry.placeholder

/-- The page-window computation: the body of the `useMemo` computing `pages`
in `Pagination.jsx`, as a function of its only dependencies `currentPage`,
`totalPages` and `pageNeighbors`. The two spill conditions are written
inline: `hasLeftSpill` is `startPage > 2` and `hasRightSpill` is
`totalPages - endPage > 1`. -/
def pagesOf (currentPage totalPages pageNeighbors : Int) : List PageEntry :=
  let totalNumbers := pageNeighbors * 2 + 3
  let totalBlocks := totalNumbers + 2
  if totalPages > totalBlocks then
    let startPage := max 2 (currentPage - pageNeighbors)
    let endPage := min (totalPages - 1) (currentPage + pageNeighbors)
    let pages0 := range startPage endPage
    let spillOffset := totalNumbers - ((pages0.length : Int) + 1)
    let pages1 :=
      if startPage > 2 ∧ ¬totalPages - endPage > 1 then
        PLACEHOLDER ::
          (range (startPage - spillOffset) (startPage - 1) ++ pages0).map PageEntry.num
      else if ¬startPage > 2 ∧ totalPages - endPage > 1 then
        (pages0 ++ range (endPage + 1) (endPage + spillOffset)).map PageEntry.num ++
          [PLACEHOLDER]
      else if startPage > 2 ∧ totalPages - endPage > 1 then
        PLACEHOLDER :: pages0.map PageEntry.num ++ [PLACEHOLDER]
      else
        pages0.map PageEntry.num
    PageEntry.num 1 :: pages1 ++ [PageEntry.num totalPages]
  else
    (range 1 totalPages).map PageEntry.num

/-- The numeric entries of a pages list, in order. -/
def numsOf (l : List PageEntry) : List Int :=
  l.filterMap (fun e => match e with
    | PageEntry.num p => some p
    | PageEntry.placeholder => none)

/-- Browser builtin `URLSearchParams.delete`: removes every pair whose key
matches. A search string is embedded as its parsed ordered list of key and
value pairs. -/
def deleteParam (ps : List (String × String)) (key : String) : List (String × String) :=
  ps.filter (fun p => p.1 != key)

/-- Browser builtin `URLSearchParams.set`: replaces the first pair whose key
matches (keeping its position), deletes any later pairs with that key, and
appends the new pair when the key is absent. -/
def setParam : List (String × String) → String → String → List (String × String)
  | [], key, v => [(key, v)]
  | p :: ps, key, v =>
    if p.1 == key then (key, v) :: deleteParam ps key else p :: setParam ps key v

/-- Browser builtin `URLSearchParams.toString`: serialises the pairs as
`key=value` joined by ampersands (percent-encoding is not modelled). -/
def paramsToString : List (String × String) → String
  | [] => ""
  | [p] => p.1 ++ "=" ++ p.2
  | p :: ps => p.1 ++ "=" ++ p.2 ++ "&" ++ paramsToString ps

/-- `getUpdatedSearchParams` from `Pagination.jsx`: parses the search string,
deletes the `page` parameter when the new page is 1 and sets it to the new
page otherwise, returning the updated parameter list (its serialisation is
taken separately by `paramsToString`). -/
def getUpdatedSearchParams (searchString : List (String × String)) (page : Int) :
    List (String × String) :=
  if page = 1 then deleteParam searchString "page"
  else setParam searchString "page" (toString page)

/-- The slice of the router `location` object the component reads: the
`pathname` and the parsed `search` string. -/
structure Location where
  pathname : String
  search : List (String × String)
  deriving DecidableEq, Repr

/-- `getPageLink` from the `Pagination` component: appends the updated query
string and the `#results` fragment when the query string is truthy (a
JavaScript string is truthy exactly when it is nonempty), and returns the
bare pathname otherwise. -/
def getPageLink (location : Location) (page : Int) : String :=
  let params := paramsToString (getUpdatedSearchParams location.search page)
  if params ≠ "" then location.pathname ++ "?" ++ params ++ "#results"
  else location.pathname

/-- The data content of the rendered pagination control: the page entries,
the link attached to each numeric entry, and the previous and next arrow
links. -/
structure RenderedPagination where
  entries : List PageEntry
  pageLinks : List String
  prevLink : String
  nextLink : String
  deriving DecidableEq, Repr

/-- The `Pagination` component as a render function; `none` models returning
`null`. The guard `if (!location) return null` fires before any page link is
built. `pageNeighbors` is 2 on wide viewports and 1 otherwise and is passed
explicitly. -/
def Pagination (location : Option Location) (currentPage totalPages pageNeighbors : Int) :
    Option RenderedPagination :=
  let pages := pagesOf currentPage totalPages pageNeighbors
  match location with
  | none => none
  | some loc =>
    some ⟨pages,
      pages.filterMap (fun e => match e with
        | PageEntry.num p => some (getPageLink loc p)
        | PageEntry.placeholder => none),
      getPageLink loc (currentPage - 1),
      getPageLink loc (currentPage + 1)⟩

/-- A menu link record from the static site-metadata query. -/
structure MenuLink where
  name : String
  slug : String
  deriving DecidableEq, Repr

/-- A rendered footer navigation item: the displayed name, the link target,
and whether the link is marked external. -/
structure FooterItem where
  name : String
  target : String
  isExternal : Bool
  deriving DecidableEq, Repr

/-- `FooterLinks` from `FooterLinks.js`: renders the queried menu links with
an appended Legal link; a link whose slug is `/watch` is redirected to the
external video URL and marked external. -/
def FooterLinks (menuLinks : List MenuLink) : List FooterItem :=
  (menuLinks ++ [(⟨"Legal", "/legal"⟩ : MenuLink)]).map (fun link =>
    (⟨link.name,
      if link.slug ≠ "/watch" then link.slug else "http://bit.ly/3csKkSE",
      link.slug == "/watch"⟩ : FooterItem))

/-! ### Helper lemmas about `range` and `numsOf` -/

lemma mem_range_iff {lo hi x : Int} : x ∈ range lo hi ↔ lo ≤ x ∧ x ≤ hi := by
  simp only [range, List.mem_map, List.mem_range]
  constructor
  · rintro ⟨i, hi2, rfl⟩
    omega
  · rintro ⟨h1, h2⟩
    exact ⟨(x - lo).toNat, by omega, by omega⟩

lemma range_length (lo hi : Int) : (range lo hi).length = (hi - lo + 1).toNat := by
  rw [range, List.length_map, List.length_range]

lemma range_pairwise (lo hi : Int) : (range lo hi).Pairwise (· < ·) := by
  rw [range]
  exact List.Pairwise.map _ (fun a b h => by omega) (List.pairwise_lt_range _)

lemma numsOf_map_num (l : List Int) : numsOf (l.map PageEntry.num) = l := by
  induction l with
  | nil => rfl
  | cons a l ih => simpa [numsOf, List.filterMap_cons] using ih

lemma numsOf_append (l1 l2 : List PageEntry) :
    numsOf (l1 ++ l2) = numsOf l1 ++ numsOf l2 := by
  simp [numsOf, List.filterMap_append]

lemma numsOf_placeholder_cons (l : List PageEntry) :
    numsOf (PageEntry.placeholder :: l) = numsOf l := rfl

lemma numsOf_num_cons (p : Int) (l : List PageEntry) :
    numsOf (PageEntry.num p :: l) = p :: numsOf l := rfl

lemma numsOf_nil : numsOf [] = [] := rfl

lemma num_mem_iff {l : List PageEntry} {p : Int} :
    PageEntry.num p ∈ l ↔ p ∈ numsOf l := by
  induction l with
  | nil => simp [numsOf]
  | cons e l ih =>
    cases e with
    | num q => simp [numsOf_num_cons, ih]
    | placeholder => simp [numsOf_placeholder_cons, ih]

lemma pairwise_cons_range (a b t : Int) (ha : 1 < a) (hbt : b < t) (h1t : 1 < t) :
    (1 :: (range a b ++ [t])).Pairwise (· < ·) := by
  rw [List.pairwise_cons]
  constructor
  · intro x hx
    rcases List.mem_append.mp hx with hx | hx
    · have := mem_range_iff.mp hx
      omega
    · simp only [List.mem_singleton] at hx
      omega
  · rw [List.pairwise_append]
    refine ⟨range_pairwise _ _, List.pairwise_singleton _ _, ?_⟩
    intro x hx y hy
    simp only [List.mem_singleton] at hy
    subst hy
    have := mem_range_iff.mp hx
    omega

lemma pairwise_cons_two_ranges (a b c d t : Int)
    (ha : 1 < a) (hc : 1 < c) (hbc : b < c) (hbt : b < t) (hdt : d < t) (h1t : 1 < t) :
    (1 :: ((range a b ++ range c d) ++ [t])).Pairwise (· < ·) := by
  rw [List.pairwise_cons]
  constructor
  · intro x hx
    rcases List.mem_append.mp hx with hx | hx
    · rcases List.mem_append.mp hx with hx | hx <;>
        (obtain h2x := mem_range_iff.mp hx; omega)
    · simp only [List.mem_singleton] at hx
      omega
  · rw [List.pairwise_append]
    refine ⟨?_, List.pairwise_singleton _ _, ?_⟩
    · rw [List.pairwise_append]
      refine ⟨range_pairwise _ _, range_pairwise _ _, ?_⟩
      intro x hx y hy
      have hx2 := mem_range_iff.mp hx
      have hy2 := mem_range_iff.mp hy
      omega
    · intro x hx y hy
      simp only [List.mem_singleton] at hy
      subst hy
      rcases List.mem_append.mp hx with hx | hx <;>
        (obtain h2x := mem_range_iff.mp hx; omega)

/-! ### Claims -/

/-- C4: for every current page and total page count, when the required
location datum is absent the `Pagination` component renders nothing: it
returns `null` before building any page links. -/
theorem pagination_null_location_renders_nothing
    (currentPage totalPages pageNeighbors : Int) :
    Pagination none currentPage totalPages pageNeighbors = none := rfl

/-- C5: the page-window computation is purely functional and deterministic:
the computed pages depend only on `currentPage`, `totalPages` and
`pageNeighbors`; no other input — in particular neither the location nor its
search string — influences which page numbers are computed. -/
theorem pagination_pages_independent_of_location
    (loc1 loc2 : Location) (currentPage totalPages pageNeighbors : Int) :
    (Pagination (some loc1) currentPage totalPages pageNeighbors).map RenderedPagination.entries =
    (Pagination (some loc2) currentPage totalPages pageNeighbors).map RenderedPagination.entries :=
  rfl

/-- C3: whenever `1 ≤ totalPages ≤ 2 * pageNeighbors + 5`, the computed pages
list is exactly `[1, 2, ..., totalPages]`: every page number in order and no
placeholder entry. -/
theorem pagesOf_small_total_lists_all_pages
    (currentPage totalPages pageNeighbors : Int)
    (hn : pageNeighbors = 1 ∨ pageNeighbors = 2)
    (h1 : 1 ≤ totalPages) (h2 : totalPages ≤ 2 * pageNeighbors + 5) :
    pagesOf currentPage totalPages pageNeighbors =
      (List.range totalPages.toNat).map (fun (i : Nat) => PageEntry.num ((i : Int) + 1)) := by
  have hcond : ¬totalPages > pageNeighbors * 2 + 3 + 2 := by omega
  simp only [pagesOf, if_neg hcond, range]
  rw [show totalPages - 1 + 1 = totalPages by omega, List.map_map]
  exact List.map_congr_left (fun i _ => by simp [Int.add_comm])

/-- Witness for C3 at `currentPage = 2`, `totalPages = 3`, `pageNeighbors = 1`. -/
theorem pagesOf_small_total_lists_all_pages_witness :
    pagesOf 2 3 1 =
      (List.range (3 : Int).toNat).map (fun (i : Nat) => PageEntry.num ((i : Int) + 1)) :=
  pagesOf_small_total_lists_all_pages 2 3 1 (Or.inl rfl) (by decide) (by decide)

/-- C1: whenever `1 ≤ currentPage ≤ totalPages`, `pageNeighbors` is 1 or 2,
and `totalPages > 2 * pageNeighbors + 5`, the computed pages list has 1 as
its first entry, `totalPages` as its last entry, and contains every page
number from `max 2 (currentPage - pageNeighbors)` up to
`min (totalPages - 1) (currentPage + pageNeighbors)` inclusive. -/
theorem pagesOf_window_first_last_mem
    (currentPage totalPages pageNeighbors : Int)
    (hn : pageNeighbors = 1 ∨ pageNeighbors = 2)
    (hc1 : 1 ≤ currentPage) (hc2 : currentPage ≤ totalPages)
    (ht : 2 * pageNeighbors + 5 < totalPages) :
    (pagesOf currentPage totalPages pageNeighbors).head? = some (PageEntry.num 1) ∧
    (pagesOf currentPage totalPages pageNeighbors).getLast? =
      some (PageEntry.num totalPages) ∧
    ∀ p : Int, max 2 (currentPage - pageNeighbors) ≤ p →
      p ≤ min (totalPages - 1) (currentPage + pageNeighbors) →
      PageEntry.num p ∈ pagesOf currentPage totalPages pageNeighbors := by
  have hgt : totalPages > pageNeighbors * 2 + 3 + 2 := by omega
  refine ⟨?_, ?_, ?_⟩
  · simp only [pagesOf]
    rw [if_pos hgt, List.cons_append, List.head?_cons]
  · simp only [pagesOf]
    rw [if_pos hgt, List.getLast?_concat]
  · intro p hp1 hp2
    have hpmem : p ∈ range (max 2 (currentPage - pageNeighbors))
        (min (totalPages - 1) (currentPage + pageNeighbors)) :=
      mem_range_iff.mpr ⟨hp1, hp2⟩
    simp only [pagesOf]
    rw [if_pos hgt]
    split_ifs with h1 h2 h3
    · exact List.mem_append_left _ (List.mem_cons_of_mem _ (List.mem_cons_of_mem _
        (List.mem_map_of_mem _ (List.mem_append_right _ hpmem))))
    · exact List.mem_append_left _ (List.mem_cons_of_mem _ (List.mem_append_left _
        (List.mem_map_of_mem _ (List.mem_append_left _ hpmem))))
    · exact List.mem_append_left _ (List.mem_cons_of_mem _ (List.mem_append_left _
        (List.mem_cons_of_mem _ (List.mem_map_of_mem _ hpmem))))
    · exact List.mem_append_left _ (List.mem_cons_of_mem _
        (List.mem_map_of_mem _ hpmem))

/-- Witness for C1 at `currentPage = 6`, `totalPages = 10`,
`pageNeighbors = 2`, checking membership at page 5. -/
theorem pagesOf_window_first_last_mem_witness :
    (pagesOf 6 10 2).head? = some (PageEntry.num 1) ∧
    (pagesOf 6 10 2).getLast? = some (PageEntry.num 10) ∧
    PageEntry.num 5 ∈ pagesOf 6 10 2 :=
  ⟨(pagesOf_window_first_last_mem 6 10 2 (Or.inr rfl) (by decide) (by decide) (by decide)).1,
   (pagesOf_window_first_last_mem 6 10 2 (Or.inr rfl) (by decide) (by decide) (by decide)).2.1,
   (pagesOf_window_first_last_mem 6 10 2 (Or.inr rfl) (by decide) (by decide)
      (by decide)).2.2 5 (by decide) (by decide)⟩

/-- C2: for every `totalPages ≥ 1`, every `currentPage` (even out of range)
and `pageNeighbors` 1 or 2, the computed pages list never holds more
placeholder or number entries than the configured block count
`totalNumbers + 2 = 2 * pageNeighbors + 5`. -/
theorem pagesOf_length_le_blocks
    (currentPage totalPages pageNeighbors : Int)
    (hn : pageNeighbors = 1 ∨ pageNeighbors = 2)
    (ht : 1 ≤ totalPages) :
    ((pagesOf currentPage totalPages pageNeighbors).length : Int) ≤
      2 * pageNeighbors + 5 := by
  have hn1 : 1 ≤ pageNeighbors := by rcases hn with rfl | rfl <;> omega
  by_cases hgt : totalPages > pageNeighbors * 2 + 3 + 2
  · simp only [pagesOf]
    rw [if_pos hgt]
    split_ifs with h1 h2 h3 <;>
      simp only [List.length_append, List.length_cons, List.length_map, range_length,
        List.length_singleton, List.length_nil] <;>
      omega
  · simp only [pagesOf]
    rw [if_neg hgt, List.length_map, range_length]
    omega

/-- Witness for C2 at `currentPage = 6`, `totalPages = 10`,
`pageNeighbors = 2`. -/
theorem pagesOf_length_le_blocks_witness :
    ((pagesOf 6 10 2).length : Int) ≤ 2 * 2 + 5 :=
  pagesOf_length_le_blocks 6 10 2 (Or.inr rfl) (by decide)

/-- C6: range validity of the output: for `totalPages ≥ 1`, `pageNeighbors`
1 or 2 and `1 ≤ currentPage ≤ totalPages`, every numeric entry of the
computed pages list lies between 1 and `totalPages` inclusive, and the
numeric entries appear in strictly increasing order. -/
theorem pagesOf_entries_in_range_and_increasing
    (currentPage totalPages pageNeighbors : Int)
    (hn : pageNeighbors = 1 ∨ pageNeighbors = 2)
    (ht : 1 ≤ totalPages)
    (hc1 : 1 ≤ currentPage) (hc2 : currentPage ≤ totalPages) :
    (∀ p : Int, PageEntry.num p ∈ pagesOf currentPage totalPages pageNeighbors →
      1 ≤ p ∧ p ≤ totalPages) ∧
    (numsOf (pagesOf currentPage totalPages pageNeighbors)).Pairwise (· < ·) := by
  have hn1 : 1 ≤ pageNeighbors := by rcases hn with rfl | rfl <;> omega
  by_cases hgt : totalPages > pageNeighbors * 2 + 3 + 2
  · constructor
    · intro p hp
      rw [num_mem_iff] at hp
      simp only [pagesOf] at hp
      rw [if_pos hgt] at hp
      split_ifs at hp with h1 h2 h3
      · simp only [PLACEHOLDER, numsOf_append, numsOf_num_cons, numsOf_placeholder_cons,
          numsOf_map_num, numsOf_nil, List.append_nil, List.cons_append, List.mem_cons,
          List.mem_append, mem_range_iff, range_length, List.not_mem_nil, or_false] at hp
        rcases hp with rfl | hp
        · omega
        rcases hp with hp | rfl
        · rcases hp with hp | hp <;> omega
        · omega
      · simp only [PLACEHOLDER, numsOf_append, numsOf_num_cons, numsOf_placeholder_cons,
          numsOf_map_num, numsOf_nil, List.append_nil, List.cons_append, List.mem_cons,
          List.mem_append, mem_range_iff, range_length, List.not_mem_nil, or_false] at hp
        rcases hp with rfl | hp
        · omega
        rcases hp with hp | rfl
        · rcases hp with hp | hp <;> omega
        · omega
      · simp only [PLACEHOLDER, numsOf_append, numsOf_num_cons, numsOf_placeholder_cons,
          numsOf_map_num, numsOf_nil, List.append_nil, List.cons_append, List.mem_cons,
          List.mem_append, mem_range_iff, range_length, List.not_mem_nil, or_false] at hp
        rcases hp with rfl | hp
        · omega
        rcases hp with hp | rfl <;> omega
      · simp only [PLACEHOLDER, numsOf_append, numsOf_num_cons, numsOf_placeholder_cons,
          numsOf_map_num, numsOf_nil, List.append_nil, List.cons_append, List.mem_cons,
          List.mem_append, mem_range_iff, range_length, List.not_mem_nil, or_false] at hp
        rcases hp with rfl | hp
        · omega
        rcases hp with hp | rfl <;> omega
    · simp only [pagesOf]
      rw [if_pos hgt]
      split_ifs with h1 h2 h3
      · simp only [PLACEHOLDER, numsOf_append, numsOf_num_cons, numsOf_placeholder_cons,
          numsOf_map_num, numsOf_nil, List.append_nil, List.cons_append, range_length]
        exact pairwise_cons_two_ranges _ _ _ _ _ (by omega) (by omega) (by omega)
          (by omega) (by omega) (by omega)
      · simp only [PLACEHOLDER, numsOf_append, numsOf_num_cons, numsOf_placeholder_cons,
          numsOf_map_num, numsOf_nil, List.append_nil, List.cons_append, range_length]
        exact pairwise_cons_two_ranges _ _ _ _ _ (by omega) (by omega) (by omega)
          (by omega) (by omega) (by omega)
      · simp only [PLACEHOLDER, numsOf_append, numsOf_num_cons, numsOf_placeholder_cons,
          numsOf_map_num, numsOf_nil, List.append_nil, List.cons_append, range_length]
        exact pairwise_cons_range _ _ _ (by omega) (by omega) (by omega)
      · simp only [PLACEHOLDER, numsOf_append, numsOf_num_cons, numsOf_placeholder_cons,
          numsOf_map_num, numsOf_nil, List.append_nil, List.cons_append, range_length]
        exact pairwise_cons_range _ _ _ (by omega) (by omega) (by omega)
  · constructor
    · intro p hp
      rw [num_mem_iff] at hp
      simp only [pagesOf] at hp
      rw [if_neg hgt, numsOf_map_num] at hp
      exact mem_range_iff.mp hp
    · simp only [pagesOf]
      rw [if_neg hgt, numsOf_map_num]
      exact range_pairwise _ _

/-- Witness for C6 at `currentPage = 6`, `totalPages = 10`,
`pageNeighbors = 2`, checking the bound at entry 7. -/
theorem pagesOf_entries_in_range_and_increasing_witness :
    (1 ≤ (7 : Int) ∧ (7 : Int) ≤ 10) ∧ (numsOf (pagesOf 6 10 2)).Pairwise (· < ·) :=
  ⟨(pagesOf_entries_in_range_and_increasing 6 10 2 (Or.inr rfl) (by decide) (by decide)
      (by decide)).1 7 (by decide),
   (pagesOf_entries_in_range_and_increasing 6 10 2 (Or.inr rfl) (by decide) (by decide)
      (by decide)).2⟩

/-- C9: the footer renders exactly the queried menu links in their original
order followed by one appended Legal link with slug `/legal`; each link's
target is its own slug except a `/watch` link, which gets the external
`http://bit.ly/3csKkSE` target and is the only kind of link marked
external. -/
theorem footerLinks_renders_menu_plus_legal (menuLinks : List MenuLink) :
    FooterLinks menuLinks =
      menuLinks.map (fun link =>
        (⟨link.name,
          if link.slug = "/watch" then "http://bit.ly/3csKkSE" else link.slug,
          link.slug == "/watch"⟩ : FooterItem)) ++
      [(⟨"Legal", "/legal", false⟩ : FooterItem)] := by
  unfold FooterLinks
  rw [List.map_append]
  congr 1
  refine List.map_congr_left (fun l _ => ?_)
  by_cases h : l.slug = "/watch" <;> simp [h]

/-! ### Search parameter lemmas -/

lemma filter_deleteParam (ps : List (String × String)) (k : String) :
    (deleteParam ps k).filter (fun p => p.1 != k) = ps.filter (fun p => p.1 != k) := by
  simp [deleteParam, List.filter_filter]

lemma filter_setParam (ps : List (String × String)) (k v : String) :
    (setParam ps k v).filter (fun p => p.1 != k) = ps.filter (fun p => p.1 != k) := by
  induction ps with
  | nil => simp [setParam]
  | cons p ps ih =>
    rcases p with ⟨a, b⟩
    by_cases h : a = k
    · subst h
      simp [setParam, filter_deleteParam]
    · have hb : (a == k) = false := by simpa using h
      simp [setParam, hb, h, ih]

/-- C7: `getUpdatedSearchParams` modifies only the `page` query parameter:
every other parameter of the input search string is present in the result at
its original position with its original value, and no parameter other than
`page` is added, removed or changed. -/
theorem getUpdatedSearchParams_frame (ps : List (String × String)) (page : Int) :
    (getUpdatedSearchParams ps page).filter (fun p => p.1 != "page") =
      ps.filter (fun p => p.1 != "page") := by
  unfold getUpdatedSearchParams
  split_ifs with h
  · exact filter_deleteParam ps "page"
  · exact filter_setParam ps "page" (toString page)

lemma deleteParam_page_only (ps : List (String × String))
    (h : ∀ p ∈ ps, p.1 = "page") : deleteParam ps "page" = [] := by
  rw [deleteParam, List.filter_eq_nil_iff]
  intro q hq
  simp [h q hq]

lemma setParam_page_only (ps : List (String × String)) (v : String)
    (h : ∀ p ∈ ps, p.1 = "page") : setParam ps "page" v = [("page", v)] := by
  cases ps with
  | nil => rfl
  | cons p ps =>
    have h1 : p.1 = "page" := h p (by simp)
    have hd := deleteParam_page_only ps (fun q hq => h q (List.mem_cons_of_mem _ hq))
    simp [setParam, h1, hd]

/-- C8: linking to page 1 removes the page parameter: for a location whose
search string holds no parameter other than `page`, `getPageLink 1` is the
bare pathname with no `?` and no `#results` fragment, while for every page
greater than or equal to 2, `getPageLink page` is the pathname followed by a
query string containing `page=<n>` and the `#results` fragment. -/
theorem getPageLink_page_one_bare_page_ge_two_query
    (loc : Location) (h : ∀ p ∈ loc.search, p.1 = "page")
    (page : Int) (hp : 2 ≤ page) :
    getPageLink loc 1 = loc.pathname ∧
    getPageLink loc page =
      loc.pathname ++ "?" ++ ("page=" ++ toString page) ++ "#results" := by
  constructor
  · have hd : getUpdatedSearchParams loc.search 1 = [] := by
      rw [getUpdatedSearchParams, if_pos rfl]
      exact deleteParam_page_only loc.search h
    simp only [getPageLink, hd]
    simp [paramsToString]
  · have hp1 : ¬page = 1 := by omega
    have hs : getUpdatedSearchParams loc.search page = [("page", toString page)] := by
      rw [getUpdatedSearchParams, if_neg hp1]
      exact setParam_page_only loc.search (toString page) h
    simp only [getPageLink, hs, paramsToString]
    have hne : ("page" ++ "=" ++ toString page : String) ≠ "" := by
      intro he
      have hlen := congrArg String.length he
      rw [String.length_append, String.length_append] at hlen
      have h4 : ("page" : String).length = 4 := rfl
      have heq : ("=" : String).length = 1 := rfl
      have h0 : ("" : String).length = 0 := rfl
      omega
    rw [if_pos hne]
    rfl

/-- Witness for C8 at pathname `/businesses`, search `page=5`, new page 2. -/
theorem getPageLink_page_one_bare_page_ge_two_query_witness :
    getPageLink ⟨"/businesses", [("page", "5")]⟩ 1 = "/businesses" ∧
    getPageLink ⟨"/businesses", [("page", "5")]⟩ 2 =
      "/businesses" ++ "?" ++ ("page=" ++ toString (2 : Int)) ++ "#results" :=
  getPageLink_page_one_bare_page_ge_two_query
    ⟨"/businesses", [("page", "5")]⟩ (by decide) 2 (by decide)

end RBB
